import Mathlib

/-!
Verification of the static-content HTTP serving subsystem of `rcli`
(`src/process/http_serve.rs`), against its natural-language specification.

The embedding works at the byte level: a raw request path is the list of
bytes of the URI path string (each in `0..256`), and filesystem paths are
lists of path segments (each segment a list of bytes).  This mirrors how
the Rust code treats paths on Unix: `&str` / `OsStr` are byte strings and
`Path` component splitting happens on the byte `47` (`'/'`).
-/

namespace HttpServe

/-- Value of a hex digit byte, as used by the `percent-encoding` crate when
decoding `%XX` escapes (`0-9`, `A-F`, `a-f`). -/
def hexVal (b : Nat) : Option Nat :=
  if 48 ≤ b ∧ b ≤ 57 then some (b - 48)
  else if 65 ≤ b ∧ b ≤ 70 then some (b - 55)
  else if 97 ≤ b ∧ b ≤ 102 then some (b - 87)
  else none

/-- `percent_encoding::percent_decode` on a byte string: a `%` followed by two
hex digits becomes the decoded byte; a `%` not followed by two hex digits is
passed through literally.  Decoding never fails. -/
def percent_decode : List Nat → List Nat
  | 37 :: h :: l :: rest =>
    match hexVal h, hexVal l with
    | some hv, some lv => (16 * hv + lv) :: percent_decode rest
    | _, _ => 37 :: percent_decode (h :: l :: rest)
  | b :: rest => b :: percent_decode rest
  | [] => []

/-- A UTF-8 continuation byte (`0x80..0xBF`). -/
def utf8_cont (b : Nat) : Bool := 128 ≤ b ∧ b ≤ 191

/-- UTF-8 validity of a byte sequence (the check performed by
`Cow::<str>::decode_utf8` on the percent-decoded bytes). -/
def valid_utf8 : List Nat → Bool
  | [] => true
  | b :: rest =>
    if b ≤ 127 then valid_utf8 rest
    else if 194 ≤ b ∧ b ≤ 223 then
      match rest with
      | c1 :: r => utf8_cont c1 && valid_utf8 r
      | [] => false
    else if b = 224 then
      match rest with
      | c1 :: c2 :: r => (160 ≤ c1 ∧ c1 ≤ 191 : Bool) && utf8_cont c2 && valid_utf8 r
      | _ => false
    else if (225 ≤ b ∧ b ≤ 236) ∨ b = 238 ∨ b = 239 then
      match rest with
      | c1 :: c2 :: r => utf8_cont c1 && utf8_cont c2 && valid_utf8 r
      | _ => false
    else if b = 237 then
      match rest with
      | c1 :: c2 :: r => (128 ≤ c1 ∧ c1 ≤ 159 : Bool) && utf8_cont c2 && valid_utf8 r
      | _ => false
    else if b = 240 then
      match rest with
      | c1 :: c2 :: c3 :: r =>
        (144 ≤ c1 ∧ c1 ≤ 191 : Bool) && utf8_cont c2 && utf8_cont c3 && valid_utf8 r
      | _ => false
    else if 241 ≤ b ∧ b ≤ 243 then
      match rest with
      | c1 :: c2 :: c3 :: r => utf8_cont c1 && utf8_cont c2 && utf8_cont c3 && valid_utf8 r
      | _ => false
    else if b = 244 then
      match rest with
      | c1 :: c2 :: c3 :: r =>
        (128 ≤ c1 ∧ c1 ≤ 143 : Bool) && utf8_cont c2 && utf8_cont c3 && valid_utf8 r
      | _ => false
    else false

/-- `std::path::Component` on Unix (the `Prefix` variant, a Windows drive or
UNC prefix, is kept in the type — the Rust code matches on it — but the Unix
component parser below never produces it). -/
inductive Component
  | drive (p : List Nat)
  | rootDir
  | curDir
  | parentDir
  | normal (name : List Nat)
deriving DecidableEq, Repr

/-- Split a byte string at every `'/'` (byte 47), keeping empty pieces. -/
def splitSeg : List Nat → List (List Nat)
  | [] => [[]]
  | 47 :: rest => [] :: splitSeg rest
  | b :: rest =>
    match splitSeg rest with
    | s :: ss => (b :: s) :: ss
    | [] => [[b]]

/-- `Path::components()` on Unix: a leading `/` yields `RootDir`; empty
segments are dropped; `.` segments are dropped except when the path itself
starts with `.` (and has no root), in which case a single `CurDir` is kept;
`..` is `ParentDir`; everything else is `Normal`. -/
def components (p : List Nat) : List Component :=
  let hasRoot : Bool := p.head? = some 47
  let segs := (splitSeg p).filter (fun s => s ≠ [])
  let includeCur : Bool := ¬ (p.head? = some 47) ∧ (p = [46] ∨ p.take 2 = [46, 47])
  (if hasRoot then [Component.rootDir] else [])
    ++ (if includeCur then [Component.curDir] else [])
    ++ (segs.filter (fun s => s ≠ [46])).map
        (fun s => if s = [46, 46] then Component.parentDir else Component.normal s)

/-- All components are `Normal` (the inner per-segment validation of
`build_and_validate_path`). -/
def all_normal (l : List Component) : Bool :=
  l.all fun c =>
    match c with
    | Component.normal _ => true
    | _ => false

/-- The component loop of `build_and_validate_path`: starting from the
accumulated path `acc` (the `PathBuf` that started at the base path), push
each `Normal` component whose own re-parse is all-`Normal`, skip `CurDir`,
and reject `Prefix`/`ParentDir`/`RootDir`. -/
def push_components : List Component → List (List Nat) → Option (List (List Nat))
  | [], acc => some acc
  | Component.normal c :: rest, acc =>
    if all_normal (components c) then push_components rest (acc ++ [c]) else none
  | Component.curDir :: rest, acc => push_components rest acc
  | Component.drive _ :: _, _ => none
  | Component.parentDir :: _, _ => none
  | Component.rootDir :: _, _ => none

/-- Lines 122–123 of `http_serve.rs`: strip leading `'/'` bytes
(`trim_start_matches('/')`) and percent-decode. -/
def path_decoded (req_path : List Nat) : List Nat :=
  percent_decode (req_path.dropWhile (fun b => b = 47))

/-- `build_and_validate_path`: trim leading slashes, percent-decode, require
the decoded bytes to be valid UTF-8, then fold the decoded path's components
onto the base path, rejecting any parent/root/drive component and any segment
that does not itself re-parse as all-`Normal`. -/
def build_and_validate_path (base_path : List (List Nat)) (req_path : List Nat) :
    Option (List (List Nat)) :=
  if valid_utf8 (path_decoded req_path) then
    push_components (components (path_decoded req_path)) base_path
  else none

/-- A component at which `build_and_validate_path` rejects: a parent-directory,
absolute-root, or drive/prefix component, or a `Normal` segment whose own
re-parse is not all-`Normal`. -/
def rejecting : Component → Bool
  | Component.parentDir => true
  | Component.rootDir => true
  | Component.drive _ => true
  | Component.curDir => false
  | Component.normal c => ! all_normal (components c)

/-- Responses the `file_service` handler can produce (the variants the claims
are about). -/
inductive Resp
  | badRequest
  | redirectPermanent (target : String)
  | htmlPage (body : String)
  | internalServerError
deriving DecidableEq, Repr

/-- The resolution gate at the top of `file_service` (lines 74–81): on
rejection respond `400 BAD_REQUEST`, otherwise continue with the resolved
path (`k` is the rest of the handler). -/
def file_service_step (root : List (List Nat)) (req_path : List Nat)
    (k : List (List Nat) → Resp) : Resp :=
  match build_and_validate_path root req_path with
  | some p => k p
  | none => Resp.badRequest

/-- Rust `str::starts_with('.')`. -/
def starts_with_dot (s : String) : Prop := s.data.head? = some '.'

instance (s : String) : Decidable (starts_with_dot s) := by
  unfold starts_with_dot; infer_instance

/-- Rust `str::ends_with('/')`. -/
def ends_with_slash (s : String) : Prop := s.data.getLast? = some '/'

instance (s : String) : Decidable (ends_with_slash s) := by
  unfold ends_with_slash; infer_instance

deriving instance DecidableEq for Except

/-- `std::fs::Metadata`, restricted to what the lister reads: the
modification time (`modified()`, itself fallible, abstracted to a numeric
timestamp) and the byte length (`len()`). -/
structure Metadata where
  modified : Except Unit Nat
  len : Nat
deriving DecidableEq, Repr

/-- One entry yielded by the directory stream: whether `entry.path().is_dir()`
holds, the result of `entry.file_name().to_str()` (`none` when the name does
not decode as text), and the result of `entry.metadata()`. -/
structure FsEntry where
  is_dir : Bool
  file_name : Option String
  metadata : Except Unit Metadata
deriving DecidableEq, Repr

/-- The `DirEntry` presentation row of `http_serve.rs` (lines 31–39). -/
structure DirEntry where
  path : String
  name : String
  etype : String
  icon : String
  update : String
  size : String
deriving DecidableEq, Repr

/-- The `DirList` aggregate passed to the template renderer (lines 26–29):
only the entries — there is no other field. -/
structure DirList where
  entries : List DirEntry
deriving DecidableEq, Repr

/-- Abstracts chrono's `format("%Y-%m-%d %H:%M")` rendering of the
modification time; no claim depends on the rendered text, only on when the
underlying metadata reads happen. -/
def format_time (t : Nat) : String := toString t

/-- Round `t / d` to the nearest integer, ties to even — how Rust's `{:.1}`
rounds the (here exact) quotient when applied with `t = n * 10`. -/
def round_half_even (t d : Nat) : Nat :=
  let q := t / d
  let r := t % d
  if 2 * r < d then q
  else if d < 2 * r then q + 1
  else if q % 2 = 0 then q else q + 1

/-- Rust `format!("{:.1}", n as f64 / d as f64)` for a power-of-two `d`
(exact for `n < 2^53`): one decimal place, round to nearest, ties to even. -/
def format_one_decimal (n d : Nat) : String :=
  let s := round_half_even (n * 10) d
  toString (s / 10) ++ "." ++ toString (s % 10)

/-- The size formatting of lines 188–194: bytes below 1024 as `B`, below
1024² as `KB` with one decimal, otherwise `MB` with one decimal. -/
def size_format (n : Nat) : String :=
  if n < 1024 then toString n ++ "B"
  else if n < 1024 * 1024 then format_one_decimal n 1024 ++ "KB"
  else format_one_decimal n (1024 * 1024) ++ "MB"

/-- The `size` match of lines 185–196: `-` for the `folder` type, otherwise
the formatted byte count. -/
def entry_size (etype : String) (size_bytes : Nat) : String :=
  if etype = "folder" then "-" else size_format size_bytes

/-- What the loop body of `get_dir_list` does with one stream entry. -/
inductive EntryStep
  | skip
  | fatal (u : Unit)
  | push (d : DirEntry)
deriving DecidableEq, Repr

/-- The loop body of `get_dir_list` (lines 162–204) for a single entry:
classify as `folder`/`text`; skip entries whose name does not decode and
entries whose name starts with `.`; append `/` to folder names; derive the
icon from the type; then read the metadata — the `?` on `metadata()` and
`modified()` makes any metadata failure fatal (`metadata()` is awaited a
second time for the length, as in the source). -/
def process_entry (e : FsEntry) : EntryStep :=
  let etype := if e.is_dir then "folder" else "text"
  match e.file_name with
  | none => EntryStep.skip
  | some n =>
    if starts_with_dot n then EntryStep.skip
    else
      let name := if etype = "folder" then n ++ "/" else n
      let path := name
      let icon := etype ++ ".gif"
      match e.metadata with
      | Except.error u => EntryStep.fatal u
      | Except.ok md =>
        match md.modified with
        | Except.error u => EntryStep.fatal u
        | Except.ok t =>
          let update := format_time t
          match e.metadata with
          | Except.error u => EntryStep.fatal u
          | Except.ok md2 =>
            EntryStep.push ⟨path, name, etype, icon, update, entry_size etype md2.len⟩

/-- The `while let` loop of `get_dir_list`: the directory stream is a list of
`next_entry()` results; an `error` item is the stream itself failing, which
the `?` propagates. -/
def get_dir_list_go : List (Except Unit FsEntry) → List DirEntry → Except Unit DirList
  | [], acc => Except.ok ⟨acc⟩
  | Except.error u :: _, _ => Except.error u
  | Except.ok e :: rest, acc =>
    match process_entry e with
    | EntryStep.skip => get_dir_list_go rest acc
    | EntryStep.fatal u => Except.error u
    | EntryStep.push d => get_dir_list_go rest (acc ++ [d])

/-- `get_dir_list` (lines 159–209): fold the stream into a `DirList`. -/
def get_dir_list (stream : List (Except Unit FsEntry)) : Except Unit DirList :=
  get_dir_list_go stream []

/-- `add_root_suffix` (lines 211–217). -/
def add_root_suffix (path : String) : String :=
  if path = "" then "/" else path ++ "/"

/-- `check_path_suffix` (lines 145–156): if the request path does not end in
`/`, a permanent redirect to the path with `/` appended; otherwise nothing. -/
def check_path_suffix (original_uri : String) : Option Resp :=
  if ¬ ends_with_slash original_uri then
    some (Resp.redirectPermanent (add_root_suffix original_uri))
  else none

/-- The directory branch of `file_service` (lines 85–107): redirect when the
trailing slash is missing, otherwise render the listing; listing or rendering
failures become `500`.  `listing` is the result of `get_dir_list` on the
resolved directory and `render` the external template renderer. -/
def serve_dir (original_uri : String) (listing : Except Unit DirList)
    (render : DirList → Except Unit String) : Resp :=
  match check_path_suffix original_uri with
  | some res => res
  | none =>
    match listing with
    | Except.ok metadata =>
      match render metadata with
      | Except.ok rendered => Resp.htmlPage rendered
      | Except.error _ => Resp.internalServerError
    | Except.error _ => Resp.internalServerError

/-- The per-row invariant of produced listing entries: the hyperlink path
equals the displayed name, the type is `folder` or `text`, the icon is
derived from the type, the name is not hidden, and folder names end in `/`. -/
def entry_prop (d : DirEntry) : Prop :=
  d.path = d.name
    ∧ (d.etype = "folder" ∨ d.etype = "text")
    ∧ d.icon = d.etype ++ ".gif"
    ∧ ¬ starts_with_dot d.name
    ∧ (d.etype = "folder" → ends_with_slash d.name)

theorem string_data_append (a b : String) : (a ++ b).data = a.data ++ b.data := by
  cases a; cases b; rfl

theorem starts_with_dot_append_slash (n : String) (h : ¬ starts_with_dot n) :
    ¬ starts_with_dot (n ++ "/") := by
  unfold starts_with_dot at *
  rw [string_data_append]
  cases hl : n.data with
  | nil => simp [show ("/" : String).data = ['/'] from rfl]
  | cons c cs =>
    rw [hl] at h
    simpa using h

theorem ends_with_slash_append (n : String) : ends_with_slash (n ++ "/") := by
  unfold ends_with_slash
  rw [string_data_append]
  simp [show ("/" : String).data = ['/'] from rfl]

theorem add_root_suffix_eq (p : String) : add_root_suffix p = p ++ "/" := by
  unfold add_root_suffix
  split
  · subst p; rfl
  · rfl

theorem push_components_eq_none_iff (l : List Component) (acc : List (List Nat)) :
    push_components l acc = none ↔ ∃ c ∈ l, rejecting c = true := by
  induction l generalizing acc with
  | nil => simp [push_components]
  | cons c rest ih =>
    cases c with
    | drive q => simp [push_components, rejecting]
    | rootDir => simp [push_components, rejecting]
    | parentDir => simp [push_components, rejecting]
    | curDir => simp [push_components, rejecting, ih]
    | normal n =>
      by_cases h : all_normal (components n) = true
      · simp [push_components, h, rejecting, ih]
      · simp only [Bool.not_eq_true] at h
        simp [push_components, h, rejecting]

theorem push_components_eq_some (l : List Component) (acc p : List (List Nat))
    (h : push_components l acc = some p) :
    ∃ cs, p = acc ++ cs ∧ ∀ c ∈ cs, all_normal (components c) = true := by
  induction l generalizing acc with
  | nil =>
    refine ⟨[], ?_, by simp⟩
    simp only [push_components, Option.some.injEq] at h
    simp [h]
  | cons c rest ih =>
    cases c with
    | drive q => simp [push_components] at h
    | rootDir => simp [push_components] at h
    | parentDir => simp [push_components] at h
    | curDir =>
      exact ih acc (by simpa [push_components] using h)
    | normal n =>
      by_cases hn : all_normal (components n) = true
      · simp only [push_components, hn, if_true] at h
        obtain ⟨cs, hcs, hall⟩ := ih (acc ++ [n]) h
        refine ⟨n :: cs, by simp [hcs], ?_⟩
        intro c hc
        rcases List.mem_cons.mp hc with hc | hc
        · subst hc; exact hn
        · exact hall c hc
      · simp [push_components, hn] at h

theorem process_entry_push_spec (e : FsEntry) (d : DirEntry)
    (h : process_entry e = EntryStep.push d) :
    entry_prop d ∧ d.etype = (if e.is_dir then "folder" else "text") := by
  obtain ⟨isd, fname, md⟩ := e
  cases fname with
  | none => simp [process_entry] at h
  | some n =>
    by_cases hd : starts_with_dot n
    · simp [process_entry, hd] at h
    · cases md with
      | error u => simp [process_entry, hd] at h
      | ok m =>
        obtain ⟨mod, len⟩ := m
        cases mod with
        | error u => simp [process_entry, hd] at h
        | ok t =>
          cases isd
          · simp [process_entry, hd] at h
            subst h
            refine ⟨⟨rfl, Or.inr rfl, rfl, hd, ?_⟩, rfl⟩
            intro hx
            exact absurd hx (show ¬ (("text" : String) = "folder") from by decide)
          · simp [process_entry, hd] at h
            subst h
            refine ⟨⟨rfl, Or.inl rfl, rfl, ?_, fun _ => ?_⟩, rfl⟩
            · exact starts_with_dot_append_slash n hd
            · exact ends_with_slash_append n

theorem get_dir_list_go_prop (s : List (Except Unit FsEntry)) :
    ∀ acc l, get_dir_list_go s acc = Except.ok l → (∀ d ∈ acc, entry_prop d) →
      ∀ d ∈ l.entries, entry_prop d := by
  induction s with
  | nil =>
    intro acc l h ha
    simp only [get_dir_list_go, Except.ok.injEq] at h
    subst h
    exact ha
  | cons x rest ih =>
    intro acc l h ha
    cases x with
    | error u => simp [get_dir_list_go] at h
    | ok e =>
      rw [get_dir_list_go] at h
      cases hp : process_entry e with
      | skip =>
        rw [hp] at h
        exact ih acc l h ha
      | fatal u => rw [hp] at h; simp at h
      | push d0 =>
        rw [hp] at h
        refine ih (acc ++ [d0]) l h ?_
        intro d hd
        rcases List.mem_append.mp hd with hd | hd
        · exact ha d hd
        · rw [List.mem_singleton.mp hd]
          exact (process_entry_push_spec e d0 hp).1

theorem get_dir_list_ok_prop (s : List (Except Unit FsEntry)) (l : DirList)
    (h : get_dir_list s = Except.ok l) : ∀ d ∈ l.entries, entry_prop d :=
  get_dir_list_go_prop s [] l h (by simp)

theorem process_entry_of_name_none (e : FsEntry) (h : e.file_name = none) :
    process_entry e = EntryStep.skip := by
  unfold process_entry
  rw [h]

/-- C1 (counterexample): the raw path `%252e%252e` is a doubly percent-encoded
`..` segment — decoding it twice yields `..` (bytes `[46, 46]`) — yet
`build_and_validate_path` does not reject it: it decodes only once, obtaining
the literal segment `%2e%2e`, and returns a path.  The claim that all doubly
encoded `..` segments are rejected is therefore false. -/
theorem c1_counterexample :
    percent_decode (percent_decode [37, 50, 53, 50, 101, 37, 50, 53, 50, 101]) = [46, 46]
    ∧ build_and_validate_path [] [37, 50, 53, 50, 101, 37, 50, 53, 50, 101]
      = some [[37, 50, 101, 37, 50, 101]] := by
  decide

/-- C1 (amended): any request path whose single percent-decoding contains a
`..` component — which covers raw and singly percent-encoded `..` segments —
is rejected by `build_and_validate_path`; and whenever the resolver returns a
path, that path is the root extended only by appended segments each of which
re-parses as only normal components (lexical confinement under the root). -/
theorem c1_resolver_confinement :
    (∀ (base : List (List Nat)) (req_path : List Nat),
      Component.parentDir ∈ components (path_decoded req_path) →
      build_and_validate_path base req_path = none)
    ∧ (∀ (base : List (List Nat)) (req_path : List Nat) (p : List (List Nat)),
      build_and_validate_path base req_path = some p →
      ∃ cs, p = base ++ cs ∧ ∀ c ∈ cs, all_normal (components c) = true) := by
  constructor
  · intro base req h
    unfold build_and_validate_path
    by_cases hv : valid_utf8 (path_decoded req) = true
    · rw [if_pos hv]
      exact (push_components_eq_none_iff _ _).mpr ⟨Component.parentDir, h, rfl⟩
    · rw [if_neg hv]
  · intro base req p h
    unfold build_and_validate_path at h
    by_cases hv : valid_utf8 (path_decoded req) = true
    · rw [if_pos hv] at h
      exact push_components_eq_some _ _ _ h
    · rw [if_neg hv] at h
      exact absurd h (by simp)

/-- C1 (witness): the raw path `..` (bytes `[46, 46]`) is rejected, and the
accepted request `a` (byte `[97]`) against root `[[114]]` yields the root
extended by one normal segment. -/
theorem c1_witness :
    build_and_validate_path [] [46, 46] = none
    ∧ ∃ cs, [[114], [97]] = [[114]] ++ cs ∧ ∀ c ∈ cs, all_normal (components c) = true :=
  ⟨c1_resolver_confinement.1 [] [46, 46] (by decide),
   c1_resolver_confinement.2 [[114]] [97] [[114], [97]] (by decide)⟩

/-- C2 (counterexample): a directory stream with a single readable-named,
non-hidden entry whose metadata read fails makes `get_dir_list` fail as a
whole (the `?` on `entry.metadata()` propagates), contradicting the claim
that an individual entry's metadata failure is skipped and never fatal. -/
theorem c2_counterexample :
    get_dir_list [Except.ok ⟨false, some "a.txt", Except.error ()⟩] = Except.error () := by
  decide

/-- C2 (amended): an entry whose name fails to decode as text is skipped and
is never fatal; a failure of the directory stream itself surfaces as an error;
but a metadata failure on a surviving (decodable, non-hidden) entry aborts the
whole listing with an error. -/
theorem c2_lister_error_handling :
    (∀ (e : FsEntry) (rest : List (Except Unit FsEntry)), e.file_name = none →
      get_dir_list (Except.ok e :: rest) = get_dir_list rest)
    ∧ (∀ (u : Unit) (rest : List (Except Unit FsEntry)),
      get_dir_list (Except.error u :: rest) = Except.error u)
    ∧ (∀ (e : FsEntry) (rest : List (Except Unit FsEntry)) (u : Unit),
      process_entry e = EntryStep.fatal u →
      get_dir_list (Except.ok e :: rest) = Except.error u) := by
  refine ⟨?_, ?_, ?_⟩
  · intro e rest h
    have hs := process_entry_of_name_none e h
    simp [get_dir_list, get_dir_list_go, hs]
  · intro u rest
    simp [get_dir_list, get_dir_list_go]
  · intro e rest u h
    simp [get_dir_list, get_dir_list_go, h]

/-- C2 (witness): an undecodable name is skipped, a stream error surfaces,
and a metadata failure is fatal, each at a concrete input. -/
theorem c2_witness :
    get_dir_list [Except.ok ⟨false, none, Except.ok ⟨Except.ok 0, 1⟩⟩] = get_dir_list []
    ∧ get_dir_list [Except.error ()] = Except.error ()
    ∧ get_dir_list [Except.ok ⟨true, some "b", Except.error ()⟩] = Except.error () :=
  ⟨c2_lister_error_handling.1 ⟨false, none, Except.ok ⟨Except.ok 0, 1⟩⟩ [] rfl,
   c2_lister_error_handling.2.1 () [],
   c2_lister_error_handling.2.2 ⟨true, some "b", Except.error ()⟩ [] () (by decide)⟩

/-- C3 (counterexample): the `DirList` handed to the renderer is determined by
the directory contents alone — requesting directory `a/b/` and requesting the
root over directories with identical (here empty) contents produce the very
same `DirList` value, which has no `parentLink` field — so no function of the
listing can yield `"/a/"` for the one request and `"/"` for the other, as the
claimed `parentLink` would have to. -/
theorem c3_counterexample :
    get_dir_list [] = Except.ok ⟨[]⟩
    ∧ ¬ ∃ parent_of : DirList → String,
        parent_of ⟨[]⟩ = "/a/" ∧ parent_of ⟨[]⟩ = "/" := by
  refine ⟨rfl, ?_⟩
  rintro ⟨f, h1, h2⟩
  rw [h1] at h2
  exact absurd h2 (by decide)

/-- C3 (amended): the `DirectoryListing` carries no parent link at all: every
listing `get_dir_list` produces consists solely of its `entries` field. -/
theorem c3_listing_is_only_entries :
    ∀ (s : List (Except Unit FsEntry)),
      Except.map (fun l => DirList.mk l.entries) (get_dir_list s) = get_dir_list s := by
  intro s
  cases h : get_dir_list s with
  | error u => rfl
  | ok l => cases l; rfl

/-- C4: in the directory branch, a request path without a trailing `/` gets a
permanent redirect to the same path with `/` appended, and a request path with
the trailing `/` is never redirected — the rendered listing is returned. -/
theorem c4_trailing_slash :
    ∀ (uri : String) (listing : Except Unit DirList) (render : DirList → Except Unit String),
      (¬ ends_with_slash uri →
        serve_dir uri listing render = Resp.redirectPermanent (uri ++ "/"))
      ∧ (ends_with_slash uri → ∀ d rendered, listing = Except.ok d →
          render d = Except.ok rendered →
          serve_dir uri listing render = Resp.htmlPage rendered) := by
  intro uri listing render
  constructor
  · intro h
    simp [serve_dir, check_path_suffix, h, add_root_suffix_eq]
  · intro h d rendered hl hr
    simp [serve_dir, check_path_suffix, h, hl, hr]

/-- C4 (witness): `/src` redirects to `/src/`, and `/src/` yields the
rendered page. -/
theorem c4_witness :
    serve_dir "/src" (Except.ok ⟨[]⟩) (fun _ => Except.ok "page")
      = Resp.redirectPermanent ("/src" ++ "/")
    ∧ serve_dir "/src/" (Except.ok ⟨[]⟩) (fun _ => Except.ok "page") = Resp.htmlPage "page" :=
  ⟨(c4_trailing_slash "/src" (Except.ok ⟨[]⟩) (fun _ => Except.ok "page")).1 (by decide),
   (c4_trailing_slash "/src/" (Except.ok ⟨[]⟩) (fun _ => Except.ok "page")).2 (by decide)
     ⟨[]⟩ "page" rfl rfl⟩

/-- C5: the resolver rejects exactly when the percent-decoded bytes are not
valid UTF-8 or some component of the decoded path is rejecting (a
parent-directory, absolute-root, or drive/prefix component, or a segment
whose own re-parse is not all-normal); and whenever it rejects, the handler
responds `400 BAD_REQUEST`. -/
theorem c5_rejection_iff :
    (∀ (base : List (List Nat)) (req_path : List Nat),
      build_and_validate_path base req_path = none ↔
        (valid_utf8 (path_decoded req_path) = false
          ∨ ∃ c ∈ components (path_decoded req_path), rejecting c = true))
    ∧ (∀ (root : List (List Nat)) (req_path : List Nat) (k : List (List Nat) → Resp),
      build_and_validate_path root req_path = none →
      file_service_step root req_path k = Resp.badRequest) := by
  constructor
  · intro base req
    unfold build_and_validate_path
    by_cases hv : valid_utf8 (path_decoded req) = true
    · rw [if_pos hv, push_components_eq_none_iff]
      simp [hv]
    · rw [if_neg hv]
      simp only [Bool.not_eq_true] at hv
      simp [hv]
  · intro root req k h
    unfold file_service_step
    rw [h]

/-- C5 (witness): the traversal request `/..` is rejected (its iff instance)
and the handler maps the rejection to `400`. -/
theorem c5_witness :
    (build_and_validate_path [] [47, 46, 46] = none ↔
      (valid_utf8 (path_decoded [47, 46, 46]) = false
        ∨ ∃ c ∈ components (path_decoded [47, 46, 46]), rejecting c = true))
    ∧ file_service_step [] [47, 46, 46] (fun _ => Resp.internalServerError)
      = Resp.badRequest :=
  ⟨c5_rejection_iff.1 [] [47, 46, 46],
   c5_rejection_iff.2 [] [47, 46, 46] (fun _ => Resp.internalServerError) (by decide)⟩

/-- C6: the size label is `-` for folders; otherwise the byte count is
formatted with the largest fitting unit among B, KB, MB with one decimal
beyond KB — 512 bytes as `512B`, 2048 bytes as `2.0KB`, 2·1024·1024 bytes
as `2.0MB`. -/
theorem c6_size_formatting :
    (∀ n : Nat, entry_size "folder" n = "-")
    ∧ entry_size "text" 512 = "512B"
    ∧ entry_size "text" 2048 = "2.0KB"
    ∧ entry_size "text" (2 * 1024 * 1024) = "2.0MB" := by
  refine ⟨fun n => ?_, by decide, by decide, by decide⟩
  simp [entry_size]

/-- C7 (counterexample): a non-directory entry is classified as `"text"`, not
`"file"` — the produced kind lies outside the claimed set `{folder, file}`. -/
theorem c7_counterexample :
    ∃ l, get_dir_list [Except.ok ⟨false, some "notes", Except.ok ⟨Except.ok 0, 512⟩⟩]
        = Except.ok l
      ∧ ∃ d ∈ l.entries, d.etype ≠ "folder" ∧ d.etype ≠ "file" := by
  refine ⟨⟨[⟨"notes", "notes", "text", "text.gif", "0", "512B"⟩]⟩, by decide, ?_⟩
  exact ⟨⟨"notes", "notes", "text", "text.gif", "0", "512B"⟩, by simp, by decide, by decide⟩

/-- C7 (amended): every produced entry's kind is `"folder"` or `"text"`
(`"folder"` exactly when the filesystem entry is a directory, `"text"`
otherwise), and the icon is derived deterministically from the kind as
`kind ++ ".gif"`. -/
theorem c7_kind_and_icon :
    (∀ (s : List (Except Unit FsEntry)) (l : DirList), get_dir_list s = Except.ok l →
      ∀ d ∈ l.entries, (d.etype = "folder" ∨ d.etype = "text") ∧ d.icon = d.etype ++ ".gif")
    ∧ (∀ (e : FsEntry) (d : DirEntry), process_entry e = EntryStep.push d →
      d.etype = (if e.is_dir then "folder" else "text")) := by
  constructor
  · intro s l h d hd
    have hp := get_dir_list_ok_prop s l h d hd
    exact ⟨hp.2.1, hp.2.2.1⟩
  · intro e d h
    exact (process_entry_push_spec e d h).2

/-- C7 (witness): the folder entry produced for directory `a` has kind
`folder` and icon `folder.gif`. -/
theorem c7_witness :
    ((DirEntry.mk "a/" "a/" "folder" "folder.gif" "0" "-").etype = "folder"
      ∨ (DirEntry.mk "a/" "a/" "folder" "folder.gif" "0" "-").etype = "text")
    ∧ (DirEntry.mk "a/" "a/" "folder" "folder.gif" "0" "-").icon
      = (DirEntry.mk "a/" "a/" "folder" "folder.gif" "0" "-").etype ++ ".gif" :=
  c7_kind_and_icon.1 [Except.ok ⟨true, some "a", Except.ok ⟨Except.ok 0, 5⟩⟩]
    ⟨[⟨"a/", "a/", "folder", "folder.gif", "0", "-"⟩]⟩ (by decide)
    ⟨"a/", "a/", "folder", "folder.gif", "0", "-"⟩ (by simp)

/-- C8: no entry of a produced listing has a name beginning with `.`; in
particular a directory containing `.env` (and `b`) lists only `b`. -/
theorem c8_hidden_excluded :
    (∀ (s : List (Except Unit FsEntry)) (l : DirList), get_dir_list s = Except.ok l →
      ∀ d ∈ l.entries, ¬ starts_with_dot d.name)
    ∧ get_dir_list [Except.ok ⟨false, some ".env", Except.ok ⟨Except.ok 0, 5⟩⟩,
        Except.ok ⟨false, some "b", Except.ok ⟨Except.ok 0, 5⟩⟩]
      = Except.ok ⟨[⟨"b", "b", "text", "text.gif", "0", "5B"⟩]⟩ := by
  constructor
  · intro s l h d hd
    exact (get_dir_list_ok_prop s l h d hd).2.2.2.1
  · decide

/-- C8 (witness): the surviving entry of the `.env`/`b` directory does not
start with a dot. -/
theorem c8_witness :
    ¬ starts_with_dot (DirEntry.mk "b" "b" "text" "text.gif" "0" "5B").name :=
  c8_hidden_excluded.1 [Except.ok ⟨false, some ".env", Except.ok ⟨Except.ok 0, 5⟩⟩,
      Except.ok ⟨false, some "b", Except.ok ⟨Except.ok 0, 5⟩⟩]
    ⟨[⟨"b", "b", "text", "text.gif", "0", "5B"⟩]⟩ (by decide)
    ⟨"b", "b", "text", "text.gif", "0", "5B"⟩ (by simp)

/-- C9: path resolution is deterministic — resolving the same request path
against the same root twice yields the same result (the resolver is a pure
function of the root and the raw path). -/
theorem c9_deterministic :
    ∀ (base : List (List Nat)) (req_path : List Nat),
      build_and_validate_path base req_path = build_and_validate_path base req_path :=
  fun _ _ => rfl

/-- C10: for every produced entry, the hyperlink path equals the displayed
name, and a folder entry's name (hence its link target) ends in `/`. -/
theorem c10_link_equals_name :
    ∀ (s : List (Except Unit FsEntry)) (l : DirList), get_dir_list s = Except.ok l →
      ∀ d ∈ l.entries, d.path = d.name ∧ (d.etype = "folder" → ends_with_slash d.name) := by
  intro s l h d hd
  have hp := get_dir_list_ok_prop s l h d hd
  exact ⟨hp.1, hp.2.2.2.2⟩

/-- C10 (witness): the folder entry for directory `a` links to `a/`, equal to
its displayed name and ending in a slash. -/
theorem c10_witness :
    (DirEntry.mk "a/" "a/" "folder" "folder.gif" "0" "-").path
      = (DirEntry.mk "a/" "a/" "folder" "folder.gif" "0" "-").name
    ∧ ((DirEntry.mk "a/" "a/" "folder" "folder.gif" "0" "-").etype = "folder" →
        ends_with_slash (DirEntry.mk "a/" "a/" "folder" "folder.gif" "0" "-").name) :=
  c10_link_equals_name [Except.ok ⟨true, some "a", Except.ok ⟨Except.ok 0, 5⟩⟩]
    ⟨[⟨"a/", "a/", "folder", "folder.gif", "0", "-"⟩]⟩ (by decide)
    ⟨"a/", "a/", "folder", "folder.gif", "0", "-"⟩ (by simp)

end HttpServe
